import Mathlib

/-!
Verification of the core of the await-sleep-until library.

The development embeds the two core components of the library, the
condition-polling waiter (sleepUntil) and the bounded-concurrency executor
(parallel), as executable Lean functions, and proves the specification
claims about them.

The embedding follows src/unnamed/part_000 (the same code is shipped
compiled in src/src/index.ts and declared in dist/index.d.ts):

  sleepUntil (lines 44-102): a polling loop with an abort pre-check, an
  in-loop abort check, a three-sentinel emptiness test
  (value !== false && value !== null && value !== undefined), an elapsed
  timeout check after each empty result, and a backoff/interval wait that
  is skipped when non-positive.  Cooperative time is modelled explicitly:
  each condition invocation takes condDur k milliseconds and each
  suspension advances the clock by the computed wait.  The loop takes a
  fuel argument; fuel exhaustion returns none and models only that the
  simulation was cut off, never an outcome of the code.

  parallel (lines 285-315): synchronous validation of the concurrency
  limit, a Promise.all fast path when the limit is Infinity or at least
  the number of tasks, and otherwise a windowed loop that starts tasks in
  submission order, awaits Promise.race when the window is full, and
  collects each result by results.push at completion time.  Tasks are
  modelled as (value, duration) pairs; Promise.race resolution is the
  in-flight entry with the earliest absolute finish time, ties broken in
  favour of the earliest-registered timer.
-/

/-- A JavaScript runtime value, as far as the emptiness test of sleepUntil
can distinguish values: the three sentinels false, null and undefined,
plus representative non-sentinel values (true, numbers, strings, object
identities). -/
inductive JSVal where
  | vFalse
  | vTrue
  | vNull
  | vUndefined
  | vNum (n : Int)
  | vStr (s : String)
  | vObj (id : Nat)
deriving DecidableEq, Repr

/-- The emptiness test of sleepUntil, the negation of the source guard
value !== false && value !== null && value !== undefined
(src/unnamed/part_000 line 84). -/
def isEmptySentinel : JSVal → Bool
  | JSVal.vFalse => true
  | JSVal.vNull => true
  | JSVal.vUndefined => true
  | _ => false

/-- Outcome of one condition() invocation: a returned (possibly awaited)
value, or a thrown error / rejected promise of type E. -/
inductive CondOut (E : Type) where
  | ret (v : JSVal)
  | err (e : E)
deriving DecidableEq, Repr

/-- The UntilOptions record of sleepUntil, plus the cancellation signal
environment.  interval and backoff results are JS numbers that may be
negative, hence Int.  timeout is none for the default Infinity.  signal is
none when no AbortSignal is supplied; some none for a signal that never
fires; some (some t) for a signal that is aborted from absolute time t
onward (time 0 is the invocation instant, so some (some 0) is a signal
already aborted at the call). -/
structure UntilConfig where
  interval : Int
  timeout : Option Nat
  signal : Option (Option Nat)
  backoff : Option (Nat → Int)

/-- Whether the abort signal reads as aborted at absolute time t. -/
def isAbortedAt (cfg : UntilConfig) (t : Nat) : Bool :=
  match cfg.signal with
  | some (some a) => decide (a ≤ t)
  | _ => false

/-- The elapsed-time test now() - start >= timeout with start = 0
(src/unnamed/part_000 line 89); always false for the Infinity default. -/
def timeoutHit (cfg : UntilConfig) (t : Nat) : Bool :=
  match cfg.timeout with
  | some T => decide (T ≤ t)
  | none => false

/-- The computed wait before the next check:
backoff ? backoff(attempt++) : interval (src/unnamed/part_000 line 94). -/
def computedWait (cfg : UntilConfig) (attempt : Nat) : Int :=
  match cfg.backoff with
  | some f => f attempt
  | none => cfg.interval

/-- The attempt counter after computing a wait: attempt++ happens exactly
when a backoff function is configured. -/
def nextAttempt (cfg : UntilConfig) (attempt : Nat) : Nat :=
  if cfg.backoff.isSome then attempt + 1 else attempt

/-- Clock advance across the optional suspension
if (wait > 0) await sleepFor(wait) (src/unnamed/part_000 line 95): a
non-positive wait suspends nothing and leaves the clock unchanged. -/
def advanceTime (t : Nat) (wait : Int) : Nat :=
  if 0 < wait then t + wait.toNat else t

/-- The cleanup() closure of sleepUntil: removeEventListener leaves the
listener deregistered and is idempotent. -/
def removeAbortListener (_listener : Bool) : Bool := false

/-- Mutable state of one polling loop: the cooperative clock (elapsed
milliseconds since the start timestamp), the backoff attempt counter, and
the number of condition() invocations performed so far. -/
structure RunState where
  time : Nat
  attempt : Nat
  calls : Nat
deriving DecidableEq, Repr

/-- Terminal outcome of a sleepUntil invocation, tagged with the elapsed
time at settlement and the total number of condition() invocations made.
timedOut models rejection with SleepTimeoutError; failed e models
rejection with the exact thrown error e; aborted models rejection with
the abort reason. -/
inductive UntilOutcome (E : Type) where
  | resolved (v : JSVal) (time : Nat) (calls : Nat)
  | timedOut (time : Nat) (calls : Nat)
  | failed (e : E) (time : Nat) (calls : Nat)
  | aborted (time : Nat) (calls : Nat)
deriving DecidableEq, Repr

/-- The while(true) loop of sleepUntil (src/unnamed/part_000 lines 71-97).
Returns the settled outcome paired with the abort-listener registration
state at settlement; every exit path applies removeAbortListener, exactly
as every exit of the source calls cleanup().  cond k and condDur k give
the result and the duration of the k-th condition() invocation. -/
def sleepUntilLoop {E : Type} (cfg : UntilConfig) (cond : Nat → CondOut E)
    (condDur : Nat → Nat) : Nat → RunState → Bool → Option (UntilOutcome E × Bool)
  | 0, _, _ => none
  | fuel + 1, s, listener =>
    if isAbortedAt cfg s.time = true then
      some (UntilOutcome.aborted s.time s.calls, removeAbortListener listener)
    else
      match cond s.calls with
      | CondOut.err e =>
          some (UntilOutcome.failed e (s.time + condDur s.calls) (s.calls + 1),
                removeAbortListener listener)
      | CondOut.ret v =>
          if isEmptySentinel v = false then
            some (UntilOutcome.resolved v (s.time + condDur s.calls) (s.calls + 1),
                  removeAbortListener listener)
          else if timeoutHit cfg (s.time + condDur s.calls) = true then
            some (UntilOutcome.timedOut (s.time + condDur s.calls) (s.calls + 1),
                  removeAbortListener listener)
          else
            sleepUntilLoop cfg cond condDur fuel
              (RunState.mk
                (advanceTime (s.time + condDur s.calls) (computedWait cfg s.attempt))
                (nextAttempt cfg s.attempt) (s.calls + 1))
              listener

/-- A full sleepUntil invocation: the fast-abort pre-check
(src/unnamed/part_000 lines 51-53) rejects before registering any
listener or invoking the condition; otherwise the listener is registered
exactly when a signal is present and the loop starts at elapsed time 0
with zero attempts and zero invocations. -/
def sleepUntilRun {E : Type} (cfg : UntilConfig) (cond : Nat → CondOut E)
    (condDur : Nat → Nat) (fuel : Nat) : Option (UntilOutcome E × Bool) :=
  if isAbortedAt cfg 0 = true then
    some (UntilOutcome.aborted 0 0, false)
  else
    sleepUntilLoop cfg cond condDur fuel (RunState.mk 0 0 0) cfg.signal.isSome

example :
    sleepUntilRun (E := Unit)
      (UntilConfig.mk 100 none none none)
      (fun _ => CondOut.ret (JSVal.vNum 0)) (fun _ => 0) 1 =
      some (UntilOutcome.resolved (JSVal.vNum 0) 0 1, false) := by
  decide

example :
    sleepUntilRun (E := Unit)
      (UntilConfig.mk 0 (some 5) none none)
      (fun _ => CondOut.ret JSVal.vFalse) (fun _ => 1) 6 =
      some (UntilOutcome.timedOut 5 5, false) := by
  decide

/-- The error thrown synchronously by parallel when the concurrency limit
is not positive (src/unnamed/part_000 lines 289-291). -/
inductive ParError where
  | invalidConfiguration
deriving DecidableEq, Repr

/-- One in-flight task of the windowed path of parallel: its submission
index, the absolute time its promise resolves, and its resolved value. -/
structure InFlight (T : Type) where
  idx : Nat
  finish : Nat
  val : T
deriving DecidableEq, Repr

/-- State of the windowed loop of parallel.  time is the cooperative
clock; executing mirrors the executing array (registration order);
results mirrors the results array, which the source fills by
results.push(result) at each completion; started records the submission
indices in the order the tasks were invoked; preStartLens records the
size of the executing array immediately before each task start. -/
structure ExecSt (T : Type) where
  time : Nat
  executing : List (InFlight T)
  results : List T
  started : List Nat
  preStartLens : List Nat
deriving DecidableEq, Repr

/-- Promise.race over the executing array: selects the in-flight entry
with the earliest absolute finish time and returns it together with the
rest of the array in registration order.  Ties go to the
earliest-registered entry, matching timer callbacks firing in
registration order. -/
def extractEarliest {T : Type} : List (InFlight T) → Option (InFlight T × List (InFlight T))
  | [] => none
  | x :: xs =>
    match extractEarliest xs with
    | none => some (x, [])
    | some (y, ys) => if x.finish ≤ y.finish then some (x, xs) else some (y, x :: ys)

/-- Processing one completion (the .then handler at src/unnamed/part_000
lines 301-304): advance the clock to the winner's finish time, push its
value onto results, and splice it out of executing. -/
def settleOne {T : Type} (s : ExecSt T) : ExecSt T :=
  match extractEarliest s.executing with
  | none => s
  | some (e, rest) =>
    ExecSt.mk (max s.time e.finish) rest (s.results ++ [e.val]) s.started s.preStartLens

/-- Invoking task i (value v, duration d) at the current time: its
promise is appended to executing with absolute finish time now + d. -/
def startTask {T : Type} (s : ExecSt T) (i : Nat) (v : T) (d : Nat) : ExecSt T :=
  ExecSt.mk s.time (s.executing ++ [InFlight.mk i (s.time + d) v]) s.results
    (s.started ++ [i]) (s.preStartLens ++ [s.executing.length])

/-- The for-of loop of the windowed path (src/unnamed/part_000 lines
300-311): start each task in submission order, and whenever the executing
array has reached the concurrency limit, await Promise.race, which
processes exactly the earliest completion before the loop resumes. -/
def windowedGo {T : Type} (K : Nat) : List (Nat × T × Nat) → ExecSt T → ExecSt T
  | [], s => s
  | (i, v, d) :: rest, s =>
    windowedGo K rest
      (if K ≤ (startTask s i v d).executing.length then settleOne (startTask s i v d)
       else startTask s i v d)

/-- The final await Promise.all(executing) (src/unnamed/part_000 line
313): the remaining in-flight tasks complete in finish-time order, each
pushing its result. -/
def drainRemaining {T : Type} : Nat → ExecSt T → ExecSt T
  | 0, s => s
  | n + 1, s => drainRemaining n (settleOne s)

/-- The empty executor state at invocation time. -/
def initExecSt (T : Type) : ExecSt T :=
  ExecSt.mk 0 [] [] [] []

/-- A complete run of the windowed path on tasks given as
(value, duration) pairs in submission order. -/
def windowedRun {T : Type} (K : Nat) (tasks : List (T × Nat)) : ExecSt T :=
  let s := windowedGo K tasks.enum (initExecSt T)
  drainRemaining s.executing.length s

/-- Observable outcome of a parallel invocation: the settled result (or
the synchronous validation error), the submission indices in start order,
and the executing-array size immediately before each start. -/
structure ParRun (T : Type) where
  result : Except ParError (List T)
  started : List Nat
  preStartLens : List Nat
deriving Repr

/-- The fast path Promise.all(tasks.map(task => task()))
(src/unnamed/part_000 lines 293-295): every task starts immediately in
submission order and Promise.all yields the results in submission order,
independent of durations. -/
def fastPath {T : Type} (tasks : List (T × Nat)) : ParRun T :=
  ParRun.mk (Except.ok (tasks.map Prod.fst)) (List.range tasks.length)
    (List.range tasks.length)

/-- Packaging a finished windowed run as the observable outcome. -/
def windowedOutput {T : Type} (K : Nat) (tasks : List (T × Nat)) : ParRun T :=
  let s := windowedRun K tasks
  ParRun.mk (Except.ok s.results) s.started s.preStartLens

/-- The parallel executor (src/unnamed/part_000 lines 285-315) on
all-successful tasks modelled as (value, duration) pairs.  concurrency is
none for the Infinity default; a non-positive limit throws synchronously
before any task is invoked; a limit of at least the task count takes the
Promise.all fast path; otherwise the windowed loop runs. -/
def parallel {T : Type} (tasks : List (T × Nat)) (concurrency : Option Int) : ParRun T :=
  match concurrency with
  | some k =>
    if k ≤ 0 then ParRun.mk (Except.error ParError.invalidConfiguration) [] []
    else if (tasks.length : Int) ≤ k then fastPath tasks
    else windowedOutput k.toNat tasks
  | none => fastPath tasks

example :
    (parallel [((1 : Int), 20), (2, 1), (3, 1)] (some 2)).result =
      Except.ok [2, 3, 1] := by
  rfl

example :
    (parallel [((1 : Int), 20), (2, 1), (3, 1)] none).result =
      Except.ok [1, 2, 3] := by
  rfl

example :
    (parallel [((1 : Int), 20), (2, 1), (3, 1)] (some 2)).preStartLens = [0, 1, 1] := by
  rfl

lemma sleepUntilLoop_resolveStep {E : Type} (cfg : UntilConfig) (cond : Nat → CondOut E)
    (condDur : Nat → Nat) (fuel : Nat) (s : RunState) (listener : Bool) (v : JSVal)
    (hab : isAbortedAt cfg s.time = false) (hc : cond s.calls = CondOut.ret v)
    (hs : isEmptySentinel v = false) :
    sleepUntilLoop cfg cond condDur (fuel + 1) s listener =
      some (UntilOutcome.resolved v (s.time + condDur s.calls) (s.calls + 1),
            removeAbortListener listener) := by
  simp [sleepUntilLoop, hab, hc, hs]

lemma sleepUntilLoop_errStep {E : Type} (cfg : UntilConfig) (cond : Nat → CondOut E)
    (condDur : Nat → Nat) (fuel : Nat) (s : RunState) (listener : Bool) (e : E)
    (hab : isAbortedAt cfg s.time = false) (hc : cond s.calls = CondOut.err e) :
    sleepUntilLoop cfg cond condDur (fuel + 1) s listener =
      some (UntilOutcome.failed e (s.time + condDur s.calls) (s.calls + 1),
            removeAbortListener listener) := by
  simp [sleepUntilLoop, hab, hc]

lemma sleepUntilLoop_timeoutStep {E : Type} (cfg : UntilConfig) (cond : Nat → CondOut E)
    (condDur : Nat → Nat) (fuel : Nat) (s : RunState) (listener : Bool) (v : JSVal)
    (hab : isAbortedAt cfg s.time = false) (hc : cond s.calls = CondOut.ret v)
    (hs : isEmptySentinel v = true)
    (ht : timeoutHit cfg (s.time + condDur s.calls) = true) :
    sleepUntilLoop cfg cond condDur (fuel + 1) s listener =
      some (UntilOutcome.timedOut (s.time + condDur s.calls) (s.calls + 1),
            removeAbortListener listener) := by
  simp [sleepUntilLoop, hab, hc, hs, ht]

lemma sleepUntilLoop_continueStep {E : Type} (cfg : UntilConfig) (cond : Nat → CondOut E)
    (condDur : Nat → Nat) (fuel : Nat) (s : RunState) (listener : Bool) (v : JSVal)
    (hab : isAbortedAt cfg s.time = false) (hc : cond s.calls = CondOut.ret v)
    (hs : isEmptySentinel v = true)
    (ht : timeoutHit cfg (s.time + condDur s.calls) = false) :
    sleepUntilLoop cfg cond condDur (fuel + 1) s listener =
      sleepUntilLoop cfg cond condDur fuel
        (RunState.mk
          (advanceTime (s.time + condDur s.calls) (computedWait cfg s.attempt))
          (nextAttempt cfg s.attempt) (s.calls + 1)) listener := by
  simp [sleepUntilLoop, hab, hc, hs, ht]

lemma sleepUntilRun_toLoop {E : Type} (cfg : UntilConfig) (cond : Nat → CondOut E)
    (condDur : Nat → Nat) (fuel : Nat) (hab : isAbortedAt cfg 0 = false) :
    sleepUntilRun cfg cond condDur fuel =
      sleepUntilLoop cfg cond condDur fuel (RunState.mk 0 0 0) cfg.signal.isSome := by
  simp [sleepUntilRun, hab]

/-- C1: for every list of N task thunks and every concurrency limit K with
1 <= K < N, when all tasks complete successfully, parallel is claimed to
return a result list of length N in which position i holds the result of
the i-th submitted task, regardless of completion order.  The code
violates this: the windowed path fills results by results.push at
completion time.  Evaluated at tasks [(1, 20ms), (2, 1ms), (3, 1ms)] with
K = 2, the code returns [2, 3, 1] (completion order), not the claimed
[1, 2, 3]. -/
theorem c1_windowed_results_in_completion_order :
    (parallel [((1 : Int), 20), (2, 1), (3, 1)] (some 2)).result = Except.ok [2, 3, 1] ∧
    ([2, 3, 1] : List Int) ≠ [1, 2, 3] :=
  ⟨rfl, by decide⟩

/-- C2: the fast path (K unbounded or K >= N) is claimed to produce a
result array identical to the windowed path for the same tasks, for all
relative task durations.  The code violates this: on tasks
[(1, 20ms), (2, 1ms), (3, 1ms)] the fast path (concurrency none or 3)
returns [1, 2, 3] while the windowed path (concurrency 2) returns
[2, 3, 1]. -/
theorem c2_fast_path_differs_from_windowed :
    (parallel [((1 : Int), 20), (2, 1), (3, 1)] none).result = Except.ok [1, 2, 3] ∧
    (parallel [((1 : Int), 20), (2, 1), (3, 1)] (some 3)).result = Except.ok [1, 2, 3] ∧
    (parallel [((1 : Int), 20), (2, 1), (3, 1)] (some 2)).result = Except.ok [2, 3, 1] ∧
    ([1, 2, 3] : List Int) ≠ [2, 3, 1] :=
  ⟨rfl, rfl, rfl, by decide⟩

/-- C3: the emptiness test of sleepUntil treats exactly false, null and
undefined as not-yet; every other value, including 0, the empty string
and any object, is accepted, and sleepUntil resolves with it on the
attempt that produced it (the loop settles with the value and the
invocation count of that very attempt; at the first attempt the run
resolves with exactly one invocation). -/
theorem c3_sentinel_set_exact :
    (∀ v : JSVal, isEmptySentinel v = true ↔
       (v = JSVal.vFalse ∨ v = JSVal.vNull ∨ v = JSVal.vUndefined)) ∧
    (isEmptySentinel (JSVal.vNum 0) = false ∧ isEmptySentinel (JSVal.vStr "") = false ∧
       ∀ id : Nat, isEmptySentinel (JSVal.vObj id) = false) ∧
    (∀ (E : Type) (cfg : UntilConfig) (cond : Nat → CondOut E) (condDur : Nat → Nat)
       (fuel : Nat) (s : RunState) (listener : Bool) (v : JSVal),
       isAbortedAt cfg s.time = false → cond s.calls = CondOut.ret v →
       isEmptySentinel v = false →
       sleepUntilLoop cfg cond condDur (fuel + 1) s listener =
         some (UntilOutcome.resolved v (s.time + condDur s.calls) (s.calls + 1),
               removeAbortListener listener)) ∧
    (∀ (E : Type) (cfg : UntilConfig) (cond : Nat → CondOut E) (condDur : Nat → Nat)
       (fuel : Nat) (v : JSVal),
       isAbortedAt cfg 0 = false → cond 0 = CondOut.ret v → isEmptySentinel v = false →
       sleepUntilRun cfg cond condDur (fuel + 1) =
         some (UntilOutcome.resolved v (condDur 0) 1, false)) := by
  refine ⟨?_, ⟨rfl, rfl, fun _ => rfl⟩, ?_, ?_⟩
  · intro v
    cases v <;> simp [isEmptySentinel]
  · intro E cfg cond condDur fuel s listener v hab hc hs
    exact sleepUntilLoop_resolveStep cfg cond condDur fuel s listener v hab hc hs
  · intro E cfg cond condDur fuel v hab hc hs
    rw [sleepUntilRun_toLoop cfg cond condDur (fuel + 1) hab]
    have h := sleepUntilLoop_resolveStep cfg cond condDur fuel (RunState.mk 0 0 0)
      cfg.signal.isSome v hab hc hs
    simpa [removeAbortListener] using h

theorem c3_sentinel_set_exact_witness :
    isEmptySentinel (JSVal.vNum 0) = false ∧
    sleepUntilRun (E := Unit) (UntilConfig.mk 100 none none none)
      (fun _ => CondOut.ret (JSVal.vNum 0)) (fun _ => 0) 1 =
      some (UntilOutcome.resolved (JSVal.vNum 0) 0 1, false) :=
  ⟨rfl, c3_sentinel_set_exact.2.2.2 Unit (UntilConfig.mk 100 none none none)
    (fun _ => CondOut.ret (JSVal.vNum 0)) (fun _ => 0) 0 (JSVal.vNum 0) rfl rfl rfl⟩

/-- C4: when the computed wait before the next check (backoff of the
attempt index if configured, else the interval) is zero or negative, no
error is raised: the loop continues with the next check scheduled at the
very same instant (the clock component of the next state equals the time
at which the current check completed - no suspension). -/
theorem c4_nonpositive_wait_proceeds_immediately :
    ∀ (E : Type) (cfg : UntilConfig) (cond : Nat → CondOut E) (condDur : Nat → Nat)
      (fuel : Nat) (s : RunState) (listener : Bool) (v : JSVal),
      isAbortedAt cfg s.time = false → cond s.calls = CondOut.ret v →
      isEmptySentinel v = true →
      timeoutHit cfg (s.time + condDur s.calls) = false →
      computedWait cfg s.attempt ≤ 0 →
      sleepUntilLoop cfg cond condDur (fuel + 1) s listener =
        sleepUntilLoop cfg cond condDur fuel
          (RunState.mk (s.time + condDur s.calls) (nextAttempt cfg s.attempt)
            (s.calls + 1)) listener := by
  intro E cfg cond condDur fuel s listener v hab hc hs ht hw
  have hadv : advanceTime (s.time + condDur s.calls) (computedWait cfg s.attempt) =
      s.time + condDur s.calls := by
    rw [advanceTime, if_neg (not_lt.mpr hw)]
  rw [sleepUntilLoop_continueStep cfg cond condDur fuel s listener v hab hc hs ht, hadv]

theorem c4_nonpositive_wait_proceeds_immediately_witness :
    computedWait (UntilConfig.mk (-5) none none none) 0 ≤ 0 ∧
    sleepUntilLoop (E := Unit) (UntilConfig.mk (-5) none none none)
      (fun _ => CondOut.ret JSVal.vFalse) (fun _ => 0) 1 (RunState.mk 0 0 0) false =
      sleepUntilLoop (E := Unit) (UntilConfig.mk (-5) none none none)
        (fun _ => CondOut.ret JSVal.vFalse) (fun _ => 0) 0 (RunState.mk 0 0 1) false :=
  ⟨by decide, c4_nonpositive_wait_proceeds_immediately Unit
    (UntilConfig.mk (-5) none none none) (fun _ => CondOut.ret JSVal.vFalse)
    (fun _ => 0) 0 (RunState.mk 0 0 0) false JSVal.vFalse rfl rfl rfl rfl (by decide)⟩

/-- C5: for every concurrency limit K <= 0, parallel fails synchronously
with the InvalidConfiguration error kind before any task has been
started: the outcome is the validation error and the start log is
empty. -/
theorem c5_nonpositive_concurrency_invalid_configuration :
    ∀ (T : Type) (tasks : List (T × Nat)) (k : Int), k ≤ 0 →
      parallel tasks (some k) =
        ParRun.mk (Except.error ParError.invalidConfiguration) [] [] := by
  intro T tasks k hk
  simp [parallel, hk]

theorem c5_nonpositive_concurrency_invalid_configuration_witness :
    (0 : Int) ≤ 0 ∧
    parallel [((1 : Int), 1)] (some 0) =
      ParRun.mk (Except.error ParError.invalidConfiguration) [] [] :=
  ⟨by decide, c5_nonpositive_concurrency_invalid_configuration Int [((1 : Int), 1)] 0
    (by decide)⟩

/-- C8: if the condition operation throws (or its promise rejects) with
error e on the attempt performed at some reachable loop state, sleepUntil
rejects with exactly that error value e, unchanged, and the condition is
never invoked again: the settled outcome records e itself and a total
invocation count of exactly one more than before the failing attempt. -/
theorem c8_condition_error_propagated :
    ∀ (E : Type) (cfg : UntilConfig) (cond : Nat → CondOut E) (condDur : Nat → Nat)
      (fuel : Nat) (s : RunState) (listener : Bool) (e : E),
      isAbortedAt cfg s.time = false → cond s.calls = CondOut.err e →
      sleepUntilLoop cfg cond condDur (fuel + 1) s listener =
        some (UntilOutcome.failed e (s.time + condDur s.calls) (s.calls + 1),
              removeAbortListener listener) := by
  intro E cfg cond condDur fuel s listener e hab hc
  exact sleepUntilLoop_errStep cfg cond condDur fuel s listener e hab hc

theorem c8_condition_error_propagated_witness :
    sleepUntilLoop (UntilConfig.mk 100 none none none)
      (fun _ => CondOut.err "boom") (fun _ => 0) 5 (RunState.mk 0 0 0) false =
      some (UntilOutcome.failed "boom" 0 1, false) := by
  have h := c8_condition_error_propagated String (UntilConfig.mk 100 none none none)
    (fun _ => CondOut.err "boom") (fun _ => 0) 4 (RunState.mk 0 0 0) false "boom" rfl rfl
  simpa [removeAbortListener] using h

lemma sleepUntilLoop_listener_removed {E : Type} (cfg : UntilConfig)
    (cond : Nat → CondOut E) (condDur : Nat → Nat) :
    ∀ (fuel : Nat) (s : RunState) (listener : Bool) (o : UntilOutcome E) (b : Bool),
      sleepUntilLoop cfg cond condDur fuel s listener = some (o, b) → b = false := by
  intro fuel
  induction fuel with
  | zero =>
    intro s listener o b h
    simp [sleepUntilLoop] at h
  | succ n ih =>
    intro s listener o b h
    simp only [sleepUntilLoop] at h
    split at h
    · simp only [Option.some.injEq, Prod.mk.injEq, removeAbortListener] at h
      exact h.2.symm
    · split at h
      · simp only [Option.some.injEq, Prod.mk.injEq, removeAbortListener] at h
        exact h.2.symm
      · split at h
        · simp only [Option.some.injEq, Prod.mk.injEq, removeAbortListener] at h
          exact h.2.symm
        · split at h
          · simp only [Option.some.injEq, Prod.mk.injEq, removeAbortListener] at h
            exact h.2.symm
          · exact ih _ _ o b h

/-- C6: on every invocation of sleepUntil given a cancellation signal, the
abort listener registered by the invocation is deregistered on every exit
path (success, timeout, cancellation, thrown error): whenever the run
settles, the listener-registration state at settlement is false, and the
cleanup operation is idempotent, so a second removal triggered by the
cancellation path itself is harmless. -/
theorem c6_listener_removed_on_every_exit :
    (∀ (E : Type) (cfg : UntilConfig) (cond : Nat → CondOut E) (condDur : Nat → Nat)
       (fuel : Nat) (sci : Option Nat) (o : UntilOutcome E) (b : Bool),
       cfg.signal = some sci →
       sleepUntilRun cfg cond condDur fuel = some (o, b) → b = false) ∧
    (∀ b : Bool, removeAbortListener (removeAbortListener b) = removeAbortListener b) := by
  constructor
  · intro E cfg cond condDur fuel sci o b _ h
    simp only [sleepUntilRun] at h
    split at h
    · simp only [Option.some.injEq, Prod.mk.injEq] at h
      exact h.2.symm
    · exact sleepUntilLoop_listener_removed cfg cond condDur fuel _ _ o b h
  · intro b
    rfl

theorem c6_listener_removed_on_every_exit_witness :
    (UntilConfig.mk 100 none (some none) none).signal = some none ∧
    sleepUntilRun (E := Unit) (UntilConfig.mk 100 none (some none) none)
      (fun _ => CondOut.ret (JSVal.vNum 1)) (fun _ => 0) 1 =
      some (UntilOutcome.resolved (JSVal.vNum 1) 0 1, false) ∧
    false = false :=
  ⟨rfl, rfl, c6_listener_removed_on_every_exit.1 Unit
    (UntilConfig.mk 100 none (some none) none)
    (fun _ => CondOut.ret (JSVal.vNum 1)) (fun _ => 0) 1 none
    (UntilOutcome.resolved (JSVal.vNum 1) 0 1) false rfl rfl⟩

lemma advanceTime_ge (t : Nat) (w : Int) : t ≤ advanceTime t w := by
  rw [advanceTime]
  split
  · exact Nat.le_add_right t _
  · exact Nat.le_refl t

lemma sleepUntilLoop_allEmpty_timedOut {E : Type} (cfg : UntilConfig)
    (cond : Nat → CondOut E) (condDur : Nat → Nat) (T : Nat)
    (hsig : cfg.signal = none) (hT : cfg.timeout = some T)
    (hempty : ∀ k, ∃ v, cond k = CondOut.ret v ∧ isEmptySentinel v = true) :
    ∀ (fuel : Nat) (s : RunState) (listener : Bool) (o : UntilOutcome E × Bool),
      sleepUntilLoop cfg cond condDur fuel s listener = some o →
      ∃ t c, o = (UntilOutcome.timedOut t c, false) ∧ T ≤ t := by
  intro fuel
  induction fuel with
  | zero =>
    intro s listener o h
    simp [sleepUntilLoop] at h
  | succ n ih =>
    intro s listener o h
    have hab : isAbortedAt cfg s.time = false := by simp [isAbortedAt, hsig]
    obtain ⟨v, hc, hs⟩ := hempty s.calls
    by_cases ht : timeoutHit cfg (s.time + condDur s.calls) = true
    · rw [sleepUntilLoop_timeoutStep cfg cond condDur n s listener v hab hc hs ht] at h
      have ho := Option.some.inj h
      refine ⟨s.time + condDur s.calls, s.calls + 1, ho.symm, ?_⟩
      simpa [timeoutHit, hT] using ht
    · have ht2 : timeoutHit cfg (s.time + condDur s.calls) = false := by
        simpa using ht
      rw [sleepUntilLoop_continueStep cfg cond condDur n s listener v hab hc hs ht2] at h
      exact ih _ _ o h

lemma sleepUntilLoop_allEmpty_terminates {E : Type} (cfg : UntilConfig)
    (cond : Nat → CondOut E) (condDur : Nat → Nat) (T : Nat)
    (hsig : cfg.signal = none) (hT : cfg.timeout = some T)
    (hempty : ∀ k, ∃ v, cond k = CondOut.ret v ∧ isEmptySentinel v = true)
    (hdur : ∀ k, 1 ≤ condDur k) :
    ∀ (n : Nat) (s : RunState) (listener : Bool), T ≤ s.time + n →
      ∃ o, sleepUntilLoop cfg cond condDur (n + 1) s listener = some o := by
  intro n
  induction n with
  | zero =>
    intro s listener hTs
    have hab : isAbortedAt cfg s.time = false := by simp [isAbortedAt, hsig]
    obtain ⟨v, hc, hs⟩ := hempty s.calls
    have ht : timeoutHit cfg (s.time + condDur s.calls) = true := by
      simp only [timeoutHit, hT, decide_eq_true_eq]
      exact Nat.le_trans (by simpa using hTs) (Nat.le_add_right _ _)
    exact ⟨_, sleepUntilLoop_timeoutStep cfg cond condDur 0 s listener v hab hc hs ht⟩
  | succ n ih =>
    intro s listener hTs
    have hab : isAbortedAt cfg s.time = false := by simp [isAbortedAt, hsig]
    obtain ⟨v, hc, hs⟩ := hempty s.calls
    by_cases ht : timeoutHit cfg (s.time + condDur s.calls) = true
    · exact ⟨_, sleepUntilLoop_timeoutStep cfg cond condDur (n + 1) s listener v hab hc hs ht⟩
    · have ht2 : timeoutHit cfg (s.time + condDur s.calls) = false := by
        simpa using ht
      rw [sleepUntilLoop_continueStep cfg cond condDur (n + 1) s listener v hab hc hs ht2]
      apply ih
      show T ≤ advanceTime (s.time + condDur s.calls) (computedWait cfg s.attempt) + n
      have h1 : s.time + 1 ≤ s.time + condDur s.calls :=
        Nat.add_le_add_left (hdur s.calls) s.time
      have h2 : s.time + condDur s.calls ≤
          advanceTime (s.time + condDur s.calls) (computedWait cfg s.attempt) :=
        advanceTime_ge _ _
      omega

/-- C7: in every configuration without a cancellation signal whose
condition never returns a non-empty value and whose timeout is a finite
T, every settled sleepUntil run rejects with the SleepTimeoutError
outcome at elapsed time at least T measured from the start timestamp; and
when every check consumes at least one millisecond the run does settle
(fuel T + 1 suffices). -/
theorem c7_timeout_rejection :
    (∀ (E : Type) (cfg : UntilConfig) (cond : Nat → CondOut E) (condDur : Nat → Nat)
       (fuel : Nat) (T : Nat) (o : UntilOutcome E × Bool),
       cfg.signal = none → cfg.timeout = some T →
       (∀ k, ∃ v, cond k = CondOut.ret v ∧ isEmptySentinel v = true) →
       sleepUntilRun cfg cond condDur fuel = some o →
       ∃ t c, o = (UntilOutcome.timedOut t c, false) ∧ T ≤ t) ∧
    (∀ (E : Type) (cfg : UntilConfig) (cond : Nat → CondOut E) (condDur : Nat → Nat)
       (T : Nat),
       cfg.signal = none → cfg.timeout = some T →
       (∀ k, ∃ v, cond k = CondOut.ret v ∧ isEmptySentinel v = true) →
       (∀ k, 1 ≤ condDur k) →
       ∃ o, sleepUntilRun cfg cond condDur (T + 1) = some o) := by
  constructor
  · intro E cfg cond condDur fuel T o hsig hT hempty h
    have hab : isAbortedAt cfg 0 = false := by simp [isAbortedAt, hsig]
    rw [sleepUntilRun_toLoop cfg cond condDur fuel hab] at h
    exact sleepUntilLoop_allEmpty_timedOut cfg cond condDur T hsig hT hempty fuel _ _ o h
  · intro E cfg cond condDur T hsig hT hempty hdur
    have hab : isAbortedAt cfg 0 = false := by simp [isAbortedAt, hsig]
    rw [sleepUntilRun_toLoop cfg cond condDur (T + 1) hab]
    exact sleepUntilLoop_allEmpty_terminates cfg cond condDur T hsig hT hempty hdur T
      (RunState.mk 0 0 0) cfg.signal.isSome (by simp)

theorem c7_timeout_rejection_witness :
    ∃ t c, ((UntilOutcome.timedOut 5 5 : UntilOutcome Unit), false) =
      (UntilOutcome.timedOut t c, false) ∧ 5 ≤ t :=
  c7_timeout_rejection.1 Unit (UntilConfig.mk 0 (some 5) none none)
    (fun _ => CondOut.ret JSVal.vFalse) (fun _ => 1) 6 5
    (UntilOutcome.timedOut 5 5, false) rfl rfl
    (fun _ => ⟨JSVal.vFalse, rfl, rfl⟩) (by decide)

lemma sleepUntilLoop_timedOut_calls_pos {E : Type} (cfg : UntilConfig)
    (cond : Nat → CondOut E) (condDur : Nat → Nat) :
    ∀ (fuel : Nat) (s : RunState) (listener : Bool) (t c : Nat) (b : Bool),
      sleepUntilLoop cfg cond condDur fuel s listener =
        some (UntilOutcome.timedOut t c, b) → 1 ≤ c := by
  intro fuel
  induction fuel with
  | zero =>
    intro s listener t c b h
    simp [sleepUntilLoop] at h
  | succ n ih =>
    intro s listener t c b h
    simp only [sleepUntilLoop] at h
    split at h
    · simp at h
    · split at h
      · simp at h
      · split at h
        · simp at h
        · split at h
          · simp only [Option.some.injEq, Prod.mk.injEq, UntilOutcome.timedOut.injEq] at h
            omega
          · exact ih _ _ t c b h

/-- C10: the elapsed-time check runs only after a check has returned an
empty value, so every timeout rejection is preceded by at least one
condition invocation (the invocation counter of a timedOut outcome is
positive), and a condition returning a non-empty value on the first
attempt resolves successfully even with a timeout of 0. -/
theorem c10_condition_invoked_before_timeout :
    (∀ (E : Type) (cfg : UntilConfig) (cond : Nat → CondOut E) (condDur : Nat → Nat)
       (fuel : Nat) (t c : Nat) (b : Bool),
       sleepUntilRun cfg cond condDur fuel = some (UntilOutcome.timedOut t c, b) →
       1 ≤ c) ∧
    (∀ (E : Type) (cfg : UntilConfig) (cond : Nat → CondOut E) (condDur : Nat → Nat)
       (fuel : Nat) (v : JSVal),
       cfg.timeout = some 0 → isAbortedAt cfg 0 = false → cond 0 = CondOut.ret v →
       isEmptySentinel v = false →
       sleepUntilRun cfg cond condDur (fuel + 1) =
         some (UntilOutcome.resolved v (condDur 0) 1, false)) := by
  constructor
  · intro E cfg cond condDur fuel t c b h
    simp only [sleepUntilRun] at h
    split at h
    · simp at h
    · exact sleepUntilLoop_timedOut_calls_pos cfg cond condDur fuel _ _ t c b h
  · intro E cfg cond condDur fuel v _ hab hc hs
    rw [sleepUntilRun_toLoop cfg cond condDur (fuel + 1) hab]
    have h := sleepUntilLoop_resolveStep cfg cond condDur fuel (RunState.mk 0 0 0)
      cfg.signal.isSome v hab hc hs
    simpa [removeAbortListener] using h

theorem c10_condition_invoked_before_timeout_witness :
    (UntilConfig.mk 100 (some 0) none none).timeout = some 0 ∧
    sleepUntilRun (E := Unit) (UntilConfig.mk 100 (some 0) none none)
      (fun _ => CondOut.ret (JSVal.vStr "ready")) (fun _ => 3) 1 =
      some (UntilOutcome.resolved (JSVal.vStr "ready") 3 1, false) :=
  ⟨rfl, c10_condition_invoked_before_timeout.2 Unit
    (UntilConfig.mk 100 (some 0) none none)
    (fun _ => CondOut.ret (JSVal.vStr "ready")) (fun _ => 3) 0
    (JSVal.vStr "ready") rfl rfl rfl rfl⟩

lemma extractEarliest_cons_isSome {T : Type} (x : InFlight T) (xs : List (InFlight T)) :
    (extractEarliest (x :: xs)).isSome := by
  cases h : extractEarliest xs with
  | none => simp [extractEarliest, h]
  | some p =>
    obtain ⟨y, ys⟩ := p
    by_cases hf : x.finish ≤ y.finish <;> simp [extractEarliest, h, hf]

lemma extractEarliest_length {T : Type} :
    ∀ (l : List (InFlight T)) (e : InFlight T) (rest : List (InFlight T)),
      extractEarliest l = some (e, rest) → rest.length + 1 = l.length := by
  intro l
  induction l with
  | nil =>
    intro e rest h
    simp [extractEarliest] at h
  | cons x xs ih =>
    intro e rest h
    cases hx : extractEarliest xs with
    | none =>
      simp only [extractEarliest, hx, Option.some.injEq, Prod.mk.injEq] at h
      cases xs with
      | nil => simp [← h.2]
      | cons y ys =>
        have hx2 : extractEarliest (y :: ys) = none := by
          simp only [extractEarliest]
          exact hx
        have hs := extractEarliest_cons_isSome y ys
        rw [hx2] at hs
        simp at hs
    | some p =>
      obtain ⟨y, ys⟩ := p
      simp only [extractEarliest, hx] at h
      split at h
      · obtain ⟨he, hrest⟩ := Prod.mk.injEq .. ▸ Option.some.inj h
        simp [← hrest]
      · obtain ⟨he, hrest⟩ := Prod.mk.injEq .. ▸ Option.some.inj h
        have hys := ih y ys hx
        simp only [← hrest, List.length_cons]
        omega

lemma settleOne_started {T : Type} (s : ExecSt T) : (settleOne s).started = s.started := by
  rw [settleOne]
  cases h : extractEarliest s.executing with
  | none => rfl
  | some p =>
    obtain ⟨e, rest⟩ := p
    rfl

lemma settleOne_preStartLens {T : Type} (s : ExecSt T) :
    (settleOne s).preStartLens = s.preStartLens := by
  rw [settleOne]
  cases h : extractEarliest s.executing with
  | none => rfl
  | some p =>
    obtain ⟨e, rest⟩ := p
    rfl

lemma settleOne_length {T : Type} (s : ExecSt T) (hne : s.executing ≠ []) :
    (settleOne s).executing.length + 1 = s.executing.length := by
  cases hl : s.executing with
  | nil => exact absurd hl hne
  | cons x xs =>
    have hs : (extractEarliest (x :: xs)).isSome := extractEarliest_cons_isSome x xs
    obtain ⟨⟨e, rest⟩, hx⟩ := Option.isSome_iff_exists.mp hs
    simp only [settleOne, hl, hx]
    exact extractEarliest_length (x :: xs) e rest hx

lemma startTask_executing {T : Type} (s : ExecSt T) (i : Nat) (v : T) (d : Nat) :
    (startTask s i v d).executing = s.executing ++ [InFlight.mk i (s.time + d) v] := rfl

lemma startTask_started {T : Type} (s : ExecSt T) (i : Nat) (v : T) (d : Nat) :
    (startTask s i v d).started = s.started ++ [i] := rfl

lemma startTask_preStartLens {T : Type} (s : ExecSt T) (i : Nat) (v : T) (d : Nat) :
    (startTask s i v d).preStartLens = s.preStartLens ++ [s.executing.length] := rfl

lemma windowedGo_inv {T : Type} (K : Nat) :
    ∀ (ts : List (Nat × T × Nat)) (s : ExecSt T),
      s.executing.length < K →
      (∀ l ∈ s.preStartLens, l < K) →
      ((windowedGo K ts s).executing.length < K ∧
       (∀ l ∈ (windowedGo K ts s).preStartLens, l < K) ∧
       (windowedGo K ts s).started = s.started ++ ts.map Prod.fst) := by
  intro ts
  induction ts with
  | nil =>
    intro s hlen hpre
    exact ⟨hlen, hpre, by simp [windowedGo]⟩
  | cons td rest ih =>
    obtain ⟨i, v, d⟩ := td
    intro s hlen hpre
    rw [windowedGo]
    have hpre1 : ∀ l ∈ (startTask s i v d).preStartLens, l < K := by
      intro l hl
      rw [startTask_preStartLens] at hl
      rcases List.mem_append.mp hl with h | h
      · exact hpre l h
      · simp only [List.mem_singleton] at h
        omega
    have hlen0 : (startTask s i v d).executing.length = s.executing.length + 1 := by
      rw [startTask_executing]
      simp
    by_cases hK : K ≤ (startTask s i v d).executing.length
    · rw [if_pos hK]
      have hne : (startTask s i v d).executing ≠ [] := by
        rw [startTask_executing]
        simp
      have hlen2 := settleOne_length (startTask s i v d) hne
      have hlen1 : (settleOne (startTask s i v d)).executing.length < K := by
        omega
      have hpre2 : ∀ l ∈ (settleOne (startTask s i v d)).preStartLens, l < K := by
        rw [settleOne_preStartLens]
        exact hpre1
      obtain ⟨h1, h2, h3⟩ := ih (settleOne (startTask s i v d)) hlen1 hpre2
      refine ⟨h1, h2, ?_⟩
      rw [h3, settleOne_started, startTask_started]
      simp
    · rw [if_neg hK]
      have hlen1 : (startTask s i v d).executing.length < K := Nat.lt_of_not_le hK
      obtain ⟨h1, h2, h3⟩ := ih (startTask s i v d) hlen1 hpre1
      refine ⟨h1, h2, ?_⟩
      rw [h3, startTask_started]
      simp

lemma drainRemaining_started {T : Type} :
    ∀ (n : Nat) (s : ExecSt T), (drainRemaining n s).started = s.started := by
  intro n
  induction n with
  | zero => intro s; rfl
  | succ n ih =>
    intro s
    rw [drainRemaining, ih, settleOne_started]

lemma drainRemaining_preStartLens {T : Type} :
    ∀ (n : Nat) (s : ExecSt T), (drainRemaining n s).preStartLens = s.preStartLens := by
  intro n
  induction n with
  | zero => intro s; rfl
  | succ n ih =>
    intro s
    rw [drainRemaining, ih, settleOne_preStartLens]

/-- C9: for every run of parallel with N tasks and an integer concurrency
limit K with 1 <= K < N, every submitted task is started exactly once and
in submission order (the start log is exactly the index range of the task
list), and the executing array holds strictly fewer than K in-flight
tasks immediately before every task start - so the in-flight count never
exceeds K at any instant (it only ever grows at a start), and a start
while K tasks were in flight can happen only after a completion has
removed one of them. -/
theorem c9_bounded_inflight_invariant :
    ∀ (T : Type) (tasks : List (T × Nat)) (k : Int),
      1 ≤ k → k < (tasks.length : Int) →
      ((parallel tasks (some k)).started = List.range tasks.length ∧
       ∀ l ∈ (parallel tasks (some k)).preStartLens, (l : Int) < k) := by
  intro T tasks k hk hkN
  have h0 : ¬ k ≤ 0 := by omega
  have h1 : ¬ ((tasks.length : Int) ≤ k) := by omega
  simp only [parallel, if_neg h0, if_neg h1]
  have hK1 : 1 ≤ k.toNat := by omega
  have hinit : (initExecSt T).executing.length < k.toNat := by
    show (0 : Nat) < k.toNat
    omega
  have hpre : ∀ l ∈ (initExecSt T).preStartLens, l < k.toNat := by
    intro l hl
    simp [initExecSt] at hl
  obtain ⟨hlen, hprefin, hstart⟩ := windowedGo_inv k.toNat tasks.enum (initExecSt T) hinit hpre
  constructor
  · show (windowedOutput k.toNat tasks).started = List.range tasks.length
    simp only [windowedOutput, windowedRun, drainRemaining_started]
    rw [hstart]
    simp [initExecSt]
  · show ∀ l ∈ (windowedOutput k.toNat tasks).preStartLens, (l : Int) < k
    simp only [windowedOutput, windowedRun, drainRemaining_preStartLens]
    intro l hl
    have := hprefin l hl
    omega

theorem c9_bounded_inflight_invariant_witness :
    (1 : Int) ≤ 2 ∧ (2 : Int) < 3 ∧
    ((parallel [((1 : Int), 20), (2, 1), (3, 1)] (some 2)).started = List.range 3 ∧
     ∀ l ∈ (parallel [((1 : Int), 20), (2, 1), (3, 1)] (some 2)).preStartLens,
       (l : Int) < 2) :=
  ⟨by decide, by decide,
    c9_bounded_inflight_invariant Int [((1 : Int), 20), (2, 1), (3, 1)] 2
      (by decide) (by decide)⟩
